import Mathlib

/-!
Verification development for the residue log request ingestion and dispatch
pipeline.  The definitions embed `src/src/logging/log-request-handler.cc`
(LogRequestHandler::handle, processRequestQueue, processRequest,
isRequestAllowed) shallowly: pointers become `Option`, the mutable state of
the bulk loop becomes an explicit record, and server-side log lines and
dispatches to the file-logging engine are recorded as events.  Collaborator
classes that are not part of the sources (Client, Token, Configuration, the
dual-buffer queue) are modelled from the specification, as marked on each
definition.
-/

namespace Residue

/-- Internal logger id, `RESIDUE_LOGGER_ID` in src/src/logging/log.h line 27. -/
def RESIDUE_LOGGER_ID : String := "residue"

/-- Modelled from the spec: the Token data model (spec section 3) is not under
src/.  A token is the tuple (loggerId, value, issuedAt, lifeSeconds). -/
structure Token where
  loggerId : String
  value : String
  issuedAt : Nat
  lifeSeconds : Nat
deriving DecidableEq

/-- Modelled from the spec: token liveness (spec section 3):
`isValid(now) == issuedAt + lifeSeconds > now`, and `lifeSeconds == 0` means
non-expiring. -/
def Token.isValid (t : Token) (now : Nat) : Bool :=
  t.lifeSeconds == 0 || decide (now < t.issuedAt + t.lifeSeconds)

/-- Modelled from the spec: the Client data model (spec section 3) is not under
src/.  `known` records whether the id appears in configuration; `tokens` is the
client's slice of the token store (at most one live token per logger). -/
structure Client where
  id : String
  dateCreated : Nat
  age : Nat
  known : Bool
  tokens : List Token
deriving DecidableEq

/-- Modelled from the spec: `isAlive(now) == dateCreated + age > now`
(spec section 3). -/
def Client.isAlive (c : Client) (now : Nat) : Bool :=
  decide (now < c.dateCreated + c.age)

/-- Modelled from the spec: `isKnown` is true iff the id appears in
configuration (spec section 3); modelled as a stored flag. -/
def Client.isKnown (c : Client) : Bool := c.known

/-- Modelled from the spec: the Configuration class is not under src/.  Only
the flags and tables the dispatcher consults are modelled (spec section 6). -/
structure Configuration where
  allowUnknownLoggers : Bool
  allowPlainLogRequest : Bool
  allowBulkLogRequest : Bool
  knownLoggers : List String
  blacklist : List String
  maxItemsInBulk : Nat
  nonTokenLoggers : List String
  plainFlagLoggers : List String
deriving DecidableEq

def Configuration.isKnownLogger (conf : Configuration) (loggerId : String) : Bool :=
  conf.knownLoggers.contains loggerId

def Configuration.isBlacklisted (conf : Configuration) (loggerId : String) : Bool :=
  conf.blacklist.contains loggerId

/-- `hasLoggerFlag(loggerId, ALLOW_PLAIN_LOG_REQUEST)` of the source; the
dispatcher consults no other per-logger flag. -/
def Configuration.hasLoggerFlag (conf : Configuration) (loggerId : String) : Bool :=
  conf.plainFlagLoggers.contains loggerId

/-- Modelled from the spec: per-logger token requirement (spec section 4.8,
condition 4: the token check is skipped when the logger is configured as not
requiring tokens). -/
def Configuration.loggerRequiresToken (conf : Configuration) (loggerId : String) : Bool :=
  !(conf.nonTokenLoggers.contains loggerId)

/-- The LogRequest record (src/src/logging/log-request.h is not under src/;
fields follow spec section 3).  `client` is the attached client pointer and
`valid` the parser verdict `isValid()`. -/
structure LogRequest where
  loggerId : String
  clientId : String
  token : String
  msg : String
  dateReceived : Nat
  ipAddr : String
  client : Option Client
  valid : Bool
deriving DecidableEq

/-- Modelled from the spec: the token store validate operation (spec section
4.4): the stored entry for the (client, logger) pair must match by value and
be alive at the given time. -/
def validateToken (c : Client) (loggerId tokenValue : String) (now : Nat) : Bool :=
  match c.tokens.find? (fun t => t.loggerId == loggerId) with
  | none => false
  | some t => t.value == tokenValue && t.isValid now

/-- Modelled from the spec: Client::isValidToken is not under src/; per spec
section 4.8 condition 4 the check passes outright when the logger is
configured as not requiring tokens, otherwise the token store validates the
pair at the given time. -/
def Client.isValidToken (c : Client) (conf : Configuration)
    (loggerId tokenValue : String) (now : Nat) : Bool :=
  if conf.loggerRequiresToken loggerId then
    validateToken c loggerId tokenValue now
  else
    true

/-- Registry::findClient (the registry class is not under src/): id keyed
lookup of a live client, spec section 4.3. -/
def findClient (clients : List Client) (clientId : String) : Option Client :=
  clients.find? (fun c => c.id == clientId)

/-- Observable actions of the pipeline: dispatches to the file-logging engine,
the time argument passed to token validation, and the server-side log lines of
log-request-handler.cc, one constructor per call site. -/
inductive Event where
  | dispatched (r : LogRequest) (bypass : Bool)
  | tokenChecked (r : LogRequest) (checkTime : Nat)
  | tokenExpiredWarning
  | unauthorizedWarning (loggerId : String)
  | noClientError (clientId : String)
  | clientDeadError
  | invalidBulkItemError
  | bulkOverflowError
  | bulkNotAllowedError
  | framingFailedError
  | reforceValidationInfo
deriving DecidableEq

/-- LogRequestHandler::isRequestAllowed, src/src/logging/log-request-handler.cc
lines 291-321.  The boolean result follows the source's sequential overwrites
of `allowed`; additionally the call of `client->isValidToken(...)` at line 314
is recorded as a `tokenChecked` event carrying the time argument that the
source passes there, namely `request->dateReceived()`. -/
def isRequestAllowedEv (conf : Configuration) (request : LogRequest) :
    Bool × List Event :=
  match request.client with
  | none => (false, [])
  | some client =>
    let allowed := conf.allowUnknownLoggers
    let allowed := if !allowed then conf.isKnownLogger request.loggerId else allowed
    let allowed := if allowed then request.loggerId != RESIDUE_LOGGER_ID else allowed
    let allowed := if allowed then !(conf.isBlacklisted request.loggerId) else allowed
    if allowed then
      let ok := client.isValidToken conf request.loggerId request.token request.dateReceived
      (ok, Event.tokenChecked request request.dateReceived ::
            (if !ok then [Event.tokenExpiredWarning] else []))
    else
      (allowed, [])

/-- Boolean result of LogRequestHandler::isRequestAllowed. -/
def isRequestAllowed (conf : Configuration) (request : LogRequest) : Bool :=
  (isRequestAllowedEv conf request).1

/-- `clientRef != nullptr && *clientRef != nullptr` of line 201/207: the
retained client reference exists and is non-null. -/
def retainedNonNull : Option (Option Client) → Bool
  | some (some _) => true
  | _ => false

/-- Client resolution of LogRequestHandler::processRequest, lines 207-222:
take the retained reference when non-null, else the request's own client, else
(under the plain-log-request rules, with a non-empty client id) a registry
lookup by the request's client id. -/
def resolveClient (conf : Configuration) (clients : List Client)
    (request0 : LogRequest) (clientRef : Option (Option Client)) : Option Client :=
  match clientRef with
  | some (some c) => some c
  | _ =>
    match request0.client with
    | some c => some c
    | none =>
      if conf.allowPlainLogRequest
          && (conf.hasLoggerFlag request0.loggerId
              || (!(conf.isKnownLogger request0.loggerId) && conf.allowUnknownLoggers))
          && request0.clientId != "" then
        findClient clients request0.clientId
      else
        none

/-- Result of LogRequestHandler::processRequest: the boolean return value, the
request after its in-place mutations, the value written back through
`*clientRef` (None when `clientRef` was null), and the emitted events. -/
structure ProcResult where
  ok : Bool
  request : LogRequest
  clientRef : Option (Option Client)
  events : List Event
deriving DecidableEq

/-- The tail of LogRequestHandler::processRequest, lines 259-267: once the
client is resolved and attached, dispatch when the request is valid and
either checks are bypassed or the policy evaluator allows it. -/
def processResolved (conf : Configuration) (request : LogRequest)
    (bypassChecks : Bool) : Bool × List Event :=
  if request.valid then
    if bypassChecks then
      (true, [Event.dispatched request true])
    else
      let ar := isRequestAllowedEv conf request
      if ar.1 then
        (true, ar.2 ++ [Event.dispatched request false])
      else
        (false, ar.2 ++ [Event.unauthorizedWarning request.loggerId])
  else
    (false, [])

/-- LogRequestHandler::processRequest, src/src/logging/log-request-handler.cc
lines 198-268.  `clients` is the registry contents at the time of the call.
Lines 245-257 (updateUnknownLoggerUserFromRequest) only reassign the user
identity of an unknown logger, which the modelled Configuration does not
carry, so they leave the modelled state unchanged. -/
def processRequest (conf : Configuration) (clients : List Client)
    (request0 : LogRequest) (clientRef : Option (Option Client))
    (forceCheck : Bool) : ProcResult :=
  let bypassChecks := !forceCheck && retainedNonNull clientRef
  let client := resolveClient conf clients request0 clientRef
  let clientRefOut := clientRef.map (fun _ => client)
  match client with
  | none => ⟨false, request0, clientRefOut, [Event.noClientError request0.clientId]⟩
  | some c =>
    if !bypassChecks && !(c.isAlive request0.dateReceived) then
      ⟨false, request0, clientRefOut, [Event.clientDeadError]⟩
    else
      let request := { request0 with clientId := c.id, client := some c }
      let pres := processResolved conf request bypassChecks
      ⟨pres.1, request, clientRefOut, pres.2⟩

/-- Environment observed while one bulk item is handled: the registry
contents, the integrity task's `lastExecution()` (None when no integrity task
is installed) and the value `Utils::now()` would return. -/
structure ItemEnv where
  clients : List Client
  integrityLastExec : Option Nat
  now : Nat
deriving DecidableEq

/-- The local state of the bulk loop of processRequestQueue, lines 120-126. -/
structure BulkState where
  itemCount : Nat
  lastClientValidation : Nat
  currentClient : Option Client
  lastKnownClientId : String
  forceClientValidation : Bool
deriving DecidableEq

/-- The re-validation guard of lines 138-140: not already forcing, an
integrity task is installed, and `lastClientValidation <= lastExecution()`. -/
def revalidateGuard (e : ItemEnv) (st : BulkState) : Bool :=
  !st.forceClientValidation &&
    (match e.integrityLastExec with
     | some lastExec => decide (st.lastClientValidation ≤ lastExec)
     | none => false)

/-- The invalidation block of lines 141-149: discard the retained client,
restore the last known client id into the item, force validation, and reset
`lastClientValidation` to now. -/
def invalidateForRevalidation (e : ItemEnv) (st : BulkState) (item : LogRequest) :
    BulkState × LogRequest :=
  ({ st with
      forceClientValidation := true
      currentClient := none
      lastClientValidation := e.now },
   { item with client := none, clientId := st.lastKnownClientId })

/-- One valid bulk item, lines 138-161: optional invalidation, the
processRequest call with `&currentClient`, and the post-call bookkeeping.
Returns the new state, the item as passed to processRequest, and the events. -/
def bulkValidStep (conf : Configuration) (e : ItemEnv) (st : BulkState)
    (item1 : LogRequest) : BulkState × LogRequest × List Event :=
  let inv :=
    if revalidateGuard e st then
      let p := invalidateForRevalidation e st item1
      (p.1, p.2, [Event.reforceValidationInfo])
    else
      (st, item1, ([] : List Event))
  let st1 := inv.1
  let item2 := inv.2.1
  let pr := processRequest conf e.clients item2 (some st1.currentClient)
              st1.forceClientValidation
  let newCC := match pr.clientRef with
    | some x => x
    | none => st1.currentClient
  let st2 :=
    if pr.ok then
      { st1 with
          currentClient := newCC
          lastKnownClientId := (match newCC with | some c => c.id | none => "")
          forceClientValidation := false
          itemCount := st1.itemCount + 1 }
    else
      { st1 with
          currentClient := newCC
          forceClientValidation := true
          itemCount := st1.itemCount + 1 }
  (st2, item2, inv.2.2 ++ pr.events)

/-- Result of the bulk loop: final state, the items passed to processRequest
in order, and the events. -/
structure BulkResult where
  state : BulkState
  attempted : List LogRequest
  events : List Event
deriving DecidableEq

/-- The bulk item loop of processRequestQueue, lines 127-165.  `envelope` is
the decoded bulk request; each item inherits the envelope's `ipAddr` and
`dateReceived` (lines 136-137).  `envs` supplies the environment each
iteration observes; the loop stops early with a BulkOverflow error once
`itemCount` reaches `maxItemsInBulk`, and skips invalid items. -/
def processBulkItems (conf : Configuration) (envelope : LogRequest) :
    List LogRequest → List ItemEnv → BulkState → BulkResult
  | [], _, st => ⟨st, [], []⟩
  | item0 :: rest, envs, st =>
    if st.itemCount = conf.maxItemsInBulk then
      ⟨st, [], [Event.bulkOverflowError]⟩
    else
      let e := envs.headD ⟨[], none, 0⟩
      let item1 := { item0 with
                       ipAddr := envelope.ipAddr
                       dateReceived := envelope.dateReceived }
      if item1.valid then
        let step := bulkValidStep conf e st item1
        let restRes := processBulkItems conf envelope rest envs.tail step.1
        ⟨restRes.state, step.2.1 :: restRes.attempted, step.2.2 ++ restRes.events⟩
      else
        let restRes := processBulkItems conf envelope rest envs.tail st
        ⟨restRes.state, restRes.attempted, Event.invalidBulkItemError :: restRes.events⟩

/-- Request::StatusCode values observed by the dispatcher (line 112). -/
inductive RequestStatus where
  | CONTINUE
  | BAD_REQUEST
deriving DecidableEq

/-- One queued raw request together with the outcome the codec would produce
for it.  Modelled from the spec: RequestHandler::handle (the codec, spec
sections 4.1, 4.2, 4.5) is not under src/, so a queue item directly carries
the LogRequest it decodes to (`req`, with `status` and the bulk verdict), the
deserialized bulk items, and the environment the dispatcher observes while
handling it (`clients` for the non-bulk path, `now0` and `itemEnvs` for the
bulk loop). -/
structure QueueItem where
  req : LogRequest
  status : RequestStatus
  isBulk : Bool
  bulkItems : List LogRequest
  clients : List Client
  now0 : Nat
  itemEnvs : List ItemEnv
deriving DecidableEq

/-- Modelled from the spec: the dual-buffer queue class (spec section 4.6) is
not under src/.  Two buffers of fixed identity with a flipped role: `push`
appends to the producer-side buffer (`backlogQ`, the source's backlog),
while `size` and `pull` address the buffer the dispatcher drains
(`dispatchQ`); this follows the dispatcher code in src/, which records
`total = size()` and then pulls exactly `total` items.  `switchContext`
flips the two roles. -/
structure Queue where
  dispatchQ : List QueueItem
  backlogQ : List QueueItem
deriving DecidableEq

def Queue.push (q : Queue) (item : QueueItem) : Queue :=
  { q with backlogQ := q.backlogQ ++ [item] }

def Queue.size (q : Queue) : Nat := q.dispatchQ.length

def Queue.backlogSize (q : Queue) : Nat := q.backlogQ.length

def Queue.pull (q : Queue) : Option QueueItem × Queue :=
  (q.dispatchQ.head?, { q with dispatchQ := q.dispatchQ.tail })

def Queue.switchContext (q : Queue) : Queue :=
  ⟨q.backlogQ, q.dispatchQ⟩

/-- The early-return test of lines 111-112: the decoded request is neither a
valid single record nor a bulk, or its status code is not CONTINUE. -/
def badFraming (item : QueueItem) : Bool :=
  (!item.req.valid && !item.isBulk) || item.status != RequestStatus.CONTINUE

/-- Lines 117-178: bulk requests run the bulk loop when ALLOW_BULK_LOG_REQUEST
is set; a non-bulk request first copies the attached client's id into the
request (lines 171-173) and then runs processRequest with a null clientRef
and forced checks. -/
def handleItem (conf : Configuration) (item : QueueItem) : List Event :=
  if item.isBulk then
    if conf.allowBulkLogRequest then
      (processBulkItems conf item.req item.bulkItems item.itemEnvs
        ⟨0, item.now0, item.req.client, item.req.clientId, true⟩).events
    else
      [Event.bulkNotAllowedError]
  else
    let req1 := match item.req.client with
      | some c => { item.req with clientId := c.id }
      | none => item.req
    (processRequest conf item.clients req1 none true).events

/-- Result of the pull loop of processRequestQueue: the queue after the loop,
how many items were pulled, whether the loop completed without the early
return of line 114, and the events. -/
structure DrainResult where
  queue : Queue
  pulled : Nat
  completed : Bool
  events : List Event
deriving DecidableEq

/-- The `for (i = 0; i < total; ++i)` loop of lines 95-183: each iteration
pulls one item; a framing failure logs an error and returns immediately
(lines 111-115), otherwise the item is handled and the loop continues. -/
def drainLoop (conf : Configuration) : Nat → Queue → DrainResult
  | 0, q => ⟨q, 0, true, []⟩
  | Nat.succ fuel, q =>
    match q.dispatchQ with
    | [] => ⟨q, 0, true, []⟩
    | item :: restQ =>
      let q1 : Queue := ⟨restQ, q.backlogQ⟩
      if badFraming item then
        ⟨q1, 1, false, [Event.framingFailedError]⟩
      else
        let evs := handleItem conf item
        let r := drainLoop conf fuel q1
        ⟨r.queue, r.pulled + 1, r.completed, evs ++ r.events⟩

/-- Result of one drain round: the queue afterwards, the number of pulled
items, how many times switchContext ran, and the events. -/
structure RoundResult where
  queue : Queue
  pulled : Nat
  switchCount : Nat
  events : List Event
deriving DecidableEq

/-- LogRequestHandler::processRequestQueue, lines 83-196: record
`total = size()`, drain that many items, and call switchContext once at the
end — unless the loop returned early at line 114, which skips the switch. -/
def processRequestQueue (conf : Configuration) (q : Queue) : RoundResult :=
  let total := q.size
  let r := drainLoop conf total q
  if r.completed then
    ⟨r.queue.switchContext, r.pulled, 1, r.events⟩
  else
    ⟨r.queue, r.pulled, 0, r.events⟩

/-- Response::StatusCode values written to a session. -/
inductive ResponseStatus where
  | STATUS_OK
  | BAD_REQUEST
  | CONTINUE
deriving DecidableEq

/-- Modelled from the spec: the session object (spec section 4.2) is not under
src/; only the sequence of status codes written to the wire is observable. -/
structure Session where
  writes : List ResponseStatus
deriving DecidableEq

def Session.writeStatusCode (s : Session) (code : ResponseStatus) : Session :=
  ⟨s.writes ++ [code]⟩

/-- LogRequestHandler::handle, lines 76-81: write STATUS_OK to the session and
push the still-raw request onto the queue. -/
def handle (s : Session) (q : Queue) (rawRequest : QueueItem) : Session × Queue :=
  (s.writeStatusCode ResponseStatus.STATUS_OK, q.push rawRequest)

/-! Concrete data used by counterexamples and witnesses. -/

/-- A non-expiring token for logger "app". -/
def exToken : Token := ⟨"app", "T", 0, 0⟩

/-- A known client, alive until time 1000. -/
def exClient : Client := ⟨"c1", 0, 1000, true, [exToken]⟩

/-- A configuration with loggers "app" and "bad" known, "bad" blacklisted,
bulk requests allowed with a cap of 10. -/
def exConf : Configuration :=
  { allowUnknownLoggers := false
    allowPlainLogRequest := false
    allowBulkLogRequest := true
    knownLoggers := ["app", "bad"]
    blacklist := ["bad"]
    maxItemsInBulk := 10
    nonTokenLoggers := []
    plainFlagLoggers := [] }

/-- Decoded bulk envelope for exClient, received at time 100. -/
def exEnvelope : LogRequest := ⟨"app", "c1", "", "", 100, "ip", some exClient, true⟩

/-- First bulk item: logger "app" with the valid token. -/
def exItem1 : LogRequest := ⟨"app", "c1", "T", "m1", 0, "", none, true⟩

/-- Second bulk item: blacklisted logger "bad" and no token. -/
def exItem2 : LogRequest := ⟨"bad", "c1", "", "m2", 0, "", none, true⟩

/-- Environment with no integrity task installed. -/
def exEnv : ItemEnv := ⟨[exClient], none, 100⟩

/-- Initial bulk state for exEnvelope, as built at lines 120-126. -/
def exSt0 : BulkState := ⟨0, 100, some exClient, "c1", true⟩

/-- exItem1 as it is dispatched: envelope ipAddr and dateReceived, resolved
client attached. -/
def exDispatched1 : LogRequest := ⟨"app", "c1", "T", "m1", 100, "ip", some exClient, true⟩

/-- exItem2 as it is dispatched via the bypass path. -/
def exDispatched2 : LogRequest := ⟨"bad", "c1", "", "m2", 100, "ip", some exClient, true⟩

/-- The bulk raw request as a queue item. -/
def exBulkItem : QueueItem :=
  { req := exEnvelope
    status := RequestStatus.CONTINUE
    isBulk := true
    bulkItems := [exItem1, exItem2]
    clients := [exClient]
    now0 := 100
    itemEnvs := [exEnv, exEnv] }

/-- A queue holding just the bulk raw request. -/
def exQueue : Queue := ⟨[exBulkItem], []⟩

/-- A raw request that fails framing: invalid, not bulk, BAD_REQUEST. -/
def exBadItem : QueueItem :=
  { req := ⟨"app", "", "", "", 0, "", none, false⟩
    status := RequestStatus.BAD_REQUEST
    isBulk := false
    bulkItems := []
    clients := []
    now0 := 0
    itemEnvs := [] }

/-- A well-formed non-bulk raw request for exClient. -/
def exGoodItem : QueueItem :=
  { req := ⟨"app", "c1", "T", "m3", 50, "ip2", some exClient, true⟩
    status := RequestStatus.CONTINUE
    isBulk := false
    bulkItems := []
    clients := [exClient]
    now0 := 50
    itemEnvs := [] }

/-- exGoodItem's record as it is dispatched. -/
def exGoodDispatched : LogRequest := ⟨"app", "c1", "T", "m3", 50, "ip2", some exClient, true⟩

/-- A queue whose first item fails framing while a good item waits behind it. -/
def exQueueBad : Queue := ⟨[exBadItem, exGoodItem], []⟩

/-! Helper lemmas. -/

/-- Shape of the event list produced by isRequestAllowedEv: empty, a single
token check (when the result is true), or a token check followed by the
expiry warning. -/
theorem isRequestAllowedEv_snd_shape (conf : Configuration) (req : LogRequest) :
    (isRequestAllowedEv conf req).2 = []
    ∨ ((isRequestAllowedEv conf req).2 = [Event.tokenChecked req req.dateReceived]
        ∧ isRequestAllowed conf req = true)
    ∨ (isRequestAllowedEv conf req).2
        = [Event.tokenChecked req req.dateReceived, Event.tokenExpiredWarning] := by
  unfold isRequestAllowed isRequestAllowedEv
  cases hc : req.client with
  | none => simp
  | some c =>
    cases hu : conf.allowUnknownLoggers <;>
      cases hk : conf.isKnownLogger req.loggerId <;>
        cases hr : req.loggerId != RESIDUE_LOGGER_ID <;>
          cases hb : conf.isBlacklisted req.loggerId <;>
            cases hok : c.isValidToken conf req.loggerId req.token req.dateReceived <;>
              simp [hu, hk, hr, hb, hok]

/-- Events of processResolved: a token check at the request's dateReceived,
warnings, or a dispatch; a dispatch with checks on implies the policy
evaluator allowed the request, and a bypass dispatch implies bypassing was
requested. -/
theorem processResolved_events_char (conf : Configuration) (request : LogRequest)
    (bypass : Bool) (ev : Event)
    (h : ev ∈ (processResolved conf request bypass).2) :
    ev = Event.tokenChecked request request.dateReceived
    ∨ ev = Event.tokenExpiredWarning
    ∨ ev = Event.unauthorizedWarning request.loggerId
    ∨ (∃ b, ev = Event.dispatched request b
        ∧ (b = false → isRequestAllowed conf request = true)
        ∧ (b = true → bypass = true)) := by
  by_cases hv : request.valid = true
  · cases hbp : bypass with
    | true =>
      simp [processResolved, hv, hbp] at h
      exact Or.inr (Or.inr (Or.inr ⟨true, h, by simp, fun _ => rfl⟩))
    | false =>
      by_cases hal : isRequestAllowed conf request = true
      · have hal1 : (isRequestAllowedEv conf request).1 = true := hal
        simp [processResolved, hv, hbp, hal1] at h
        rcases h with h | h
        · rcases isRequestAllowedEv_snd_shape conf request with hsh | ⟨hsh, _⟩ | hsh <;>
            rw [hsh] at h <;> simp at h
          · exact Or.inl h
          · rcases h with h | h
            · exact Or.inl h
            · exact Or.inr (Or.inl h)
        · exact Or.inr (Or.inr (Or.inr ⟨false, h, fun _ => hal, by simp⟩))
      · have hal1 : (isRequestAllowedEv conf request).1 = false := by
          cases hx : (isRequestAllowedEv conf request).1 with
          | false => rfl
          | true => exact absurd hx hal
        simp [processResolved, hv, hbp, hal1] at h
        rcases h with h | h
        · rcases isRequestAllowedEv_snd_shape conf request with hsh | ⟨hsh, _⟩ | hsh <;>
            rw [hsh] at h <;> simp at h
          · exact Or.inl h
          · rcases h with h | h
            · exact Or.inl h
            · exact Or.inr (Or.inl h)
        · exact Or.inr (Or.inr (Or.inl h))
  · simp [processResolved, hv] at h

/-- Events of processRequest: the resolution errors, or an event of
processResolved on the request with the resolved client attached. -/
theorem processRequest_events_split (conf : Configuration) (clients : List Client)
    (r0 : LogRequest) (ref : Option (Option Client)) (force : Bool) (ev : Event)
    (h : ev ∈ (processRequest conf clients r0 ref force).events) :
    (∃ cid, ev = Event.noClientError cid)
    ∨ ev = Event.clientDeadError
    ∨ (∃ c, resolveClient conf clients r0 ref = some c
        ∧ ev ∈ (processResolved conf { r0 with clientId := c.id, client := some c }
                  (!force && retainedNonNull ref)).2) := by
  cases hres : resolveClient conf clients r0 ref with
  | none =>
    simp [processRequest, hres] at h
    exact Or.inl ⟨r0.clientId, h⟩
  | some c =>
    cases force with
    | true =>
      cases halive : c.isAlive r0.dateReceived with
      | false =>
        simp [processRequest, hres, halive] at h
        exact Or.inr (Or.inl h)
      | true =>
        simp [processRequest, hres, halive] at h
        refine Or.inr (Or.inr ⟨c, rfl, ?_⟩)
        simpa using h
    | false =>
      cases hret : retainedNonNull ref with
      | true =>
        simp [processRequest, hres, hret] at h
        refine Or.inr (Or.inr ⟨c, rfl, ?_⟩)
        simpa [hret] using h
      | false =>
        cases halive : c.isAlive r0.dateReceived with
        | false =>
          simp [processRequest, hres, hret, halive] at h
          exact Or.inr (Or.inl h)
        | true =>
          simp [processRequest, hres, hret, halive] at h
          refine Or.inr (Or.inr ⟨c, rfl, ?_⟩)
          simpa [hret] using h

theorem resolveClient_cases (conf : Configuration) (clients : List Client)
    (r0 : LogRequest) (ref : Option (Option Client)) (c : Client)
    (h : resolveClient conf clients r0 ref = some c) :
    ref = some (some c) ∨ r0.client = some c
    ∨ findClient clients r0.clientId = some c := by
  rcases ref with _ | (_ | c0) <;> simp only [resolveClient] at h
  · cases hc : r0.client with
    | some c1 =>
      rw [hc] at h
      exact Or.inr (Or.inl h)
    | none =>
      rw [hc] at h
      have h2 : (if conf.allowPlainLogRequest
            && (conf.hasLoggerFlag r0.loggerId
                || (!(conf.isKnownLogger r0.loggerId) && conf.allowUnknownLoggers))
            && r0.clientId != "" then
          findClient clients r0.clientId
        else none) = some c := h
      split at h2
      · exact Or.inr (Or.inr h2)
      · exact absurd h2 (by simp)
  · cases hc : r0.client with
    | some c1 =>
      rw [hc] at h
      exact Or.inr (Or.inl h)
    | none =>
      rw [hc] at h
      have h2 : (if conf.allowPlainLogRequest
            && (conf.hasLoggerFlag r0.loggerId
                || (!(conf.isKnownLogger r0.loggerId) && conf.allowUnknownLoggers))
            && r0.clientId != "" then
          findClient clients r0.clientId
        else none) = some c := h
      split at h2
      · exact Or.inr (Or.inr h2)
      · exact absurd h2 (by simp)
  · have h2 : some c0 = some c := h
    rw [Option.some_inj.mp h2]
    exact Or.inl rfl

theorem resolveClient_refnull_clientnull (conf : Configuration) (clients : List Client)
    (r0 : LogRequest) (h : r0.client = none) :
    resolveClient conf clients r0 (some none)
      = (if conf.allowPlainLogRequest
            && (conf.hasLoggerFlag r0.loggerId
                || (!(conf.isKnownLogger r0.loggerId) && conf.allowUnknownLoggers))
            && r0.clientId != "" then
          findClient clients r0.clientId
        else none) := by
  simp only [resolveClient]
  rw [h]

theorem processRequest_clientRef_eq (conf : Configuration) (clients : List Client)
    (r0 : LogRequest) (ref : Option (Option Client)) (force : Bool) :
    (processRequest conf clients r0 ref force).clientRef
      = ref.map (fun _ => resolveClient conf clients r0 ref) := by
  cases hres : resolveClient conf clients r0 ref with
  | none => simp [processRequest, hres]
  | some c =>
    cases force <;> cases hret : retainedNonNull ref <;>
      cases halive : c.isAlive r0.dateReceived <;>
        simp [processRequest, hres, hret, halive]

theorem bulkValidStep_item_fields (conf : Configuration) (e : ItemEnv)
    (st : BulkState) (item1 : LogRequest) :
    (bulkValidStep conf e st item1).2.1.loggerId = item1.loggerId
    ∧ (bulkValidStep conf e st item1).2.1.token = item1.token
    ∧ (bulkValidStep conf e st item1).2.1.msg = item1.msg
    ∧ (bulkValidStep conf e st item1).2.1.dateReceived = item1.dateReceived
    ∧ (bulkValidStep conf e st item1).2.1.ipAddr = item1.ipAddr
    ∧ (bulkValidStep conf e st item1).2.1.valid = item1.valid := by
  cases hg : revalidateGuard e st <;>
    simp [bulkValidStep, invalidateForRevalidation, hg]

theorem bulkValidStep_itemCount (conf : Configuration) (e : ItemEnv)
    (st : BulkState) (item1 : LogRequest) :
    (bulkValidStep conf e st item1).1.itemCount = st.itemCount + 1 := by
  cases hg : revalidateGuard e st <;>
    (simp [bulkValidStep, invalidateForRevalidation, hg]; split <;> simp)

theorem bulkValidStep_events_char (conf : Configuration) (e : ItemEnv)
    (st : BulkState) (item1 : LogRequest) (ev : Event)
    (h : ev ∈ (bulkValidStep conf e st item1).2.2) :
    ev = Event.reforceValidationInfo
    ∨ ∃ ref force, ev ∈ (processRequest conf e.clients
        (bulkValidStep conf e st item1).2.1 ref force).events := by
  cases hg : revalidateGuard e st with
  | true =>
    simp [bulkValidStep, invalidateForRevalidation, hg] at h
    rcases h with h | h
    · exact Or.inl h
    · exact Or.inr ⟨some none, true, by
        simpa [bulkValidStep, invalidateForRevalidation, hg] using h⟩
  | false =>
    simp [bulkValidStep, invalidateForRevalidation, hg] at h
    exact Or.inr ⟨some st.currentClient, st.forceClientValidation, by
      simpa [bulkValidStep, invalidateForRevalidation, hg] using h⟩

theorem processBulkItems_events_char (conf : Configuration) (envelope : LogRequest)
    (items : List LogRequest) :
    ∀ (envs : List ItemEnv) (st : BulkState) (ev : Event),
      ev ∈ (processBulkItems conf envelope items envs st).events →
      ev = Event.bulkOverflowError ∨ ev = Event.invalidBulkItemError
      ∨ ev = Event.reforceValidationInfo
      ∨ (∃ clients item2 ref force,
          item2.dateReceived = envelope.dateReceived
          ∧ ev ∈ (processRequest conf clients item2 ref force).events) := by
  induction items with
  | nil =>
    intro envs st ev h
    simp [processBulkItems] at h
  | cons item0 rest ih =>
    intro envs st ev h
    by_cases hc : st.itemCount = conf.maxItemsInBulk
    · simp [processBulkItems, hc] at h
      exact Or.inl h
    · by_cases hv : item0.valid = true
      · simp [processBulkItems, hc, hv] at h
        rcases h with h | h
        · rcases bulkValidStep_events_char conf _ st _ ev h with h | ⟨ref, force, h⟩
          · exact Or.inr (Or.inr (Or.inl h))
          · refine Or.inr (Or.inr (Or.inr ⟨_, _, ref, force, ?_, h⟩))
            rw [(bulkValidStep_item_fields conf _ st _).2.2.2.1]
        · exact ih envs.tail _ ev h
      · simp [processBulkItems, hc, hv] at h
        rcases h with h | h
        · exact Or.inr (Or.inl h)
        · exact ih envs.tail _ ev h

theorem handleItem_events_char (conf : Configuration) (item : QueueItem) (ev : Event)
    (h : ev ∈ handleItem conf item) :
    ev = Event.bulkNotAllowedError ∨ ev = Event.bulkOverflowError
    ∨ ev = Event.invalidBulkItemError ∨ ev = Event.reforceValidationInfo
    ∨ (∃ clients item2 ref force,
        ev ∈ (processRequest conf clients item2 ref force).events) := by
  by_cases hb : item.isBulk = true
  · by_cases hallow : conf.allowBulkLogRequest = true
    · simp [handleItem, hb, hallow] at h
      rcases processBulkItems_events_char conf item.req item.bulkItems item.itemEnvs
          _ ev h with h | h | h | ⟨clients, item2, ref, force, _, h⟩
      · exact Or.inr (Or.inl h)
      · exact Or.inr (Or.inr (Or.inl h))
      · exact Or.inr (Or.inr (Or.inr (Or.inl h)))
      · exact Or.inr (Or.inr (Or.inr (Or.inr ⟨clients, item2, ref, force, h⟩)))
    · simp [handleItem, hb, hallow] at h
      exact Or.inl h
  · simp [handleItem, hb] at h
    exact Or.inr (Or.inr (Or.inr (Or.inr ⟨item.clients, _, none, true, h⟩)))

theorem drainLoop_events_char (conf : Configuration) :
    ∀ (fuel : Nat) (q : Queue) (ev : Event),
      ev ∈ (drainLoop conf fuel q).events →
      ev = Event.framingFailedError ∨ ∃ item, ev ∈ handleItem conf item := by
  intro fuel
  induction fuel with
  | zero => intro q ev h; simp [drainLoop] at h
  | succ fuel ih =>
    intro q ev h
    cases hd : q.dispatchQ with
    | nil => simp [drainLoop, hd] at h
    | cons item restQ =>
      cases hbf : badFraming item with
      | true =>
        simp [drainLoop, hd, hbf] at h
        exact Or.inl h
      | false =>
        simp [drainLoop, hd, hbf] at h
        rcases h with h | h
        · exact Or.inr ⟨item, h⟩
        · exact ih _ ev h

theorem processRequestQueue_events_eq (conf : Configuration) (q : Queue) :
    (processRequestQueue conf q).events = (drainLoop conf q.size q).events := by
  simp only [processRequestQueue]
  split <;> rfl

theorem processRequest_tokenChecked (conf : Configuration) (clients : List Client)
    (r0 : LogRequest) (ref : Option (Option Client)) (force : Bool)
    (r : LogRequest) (t : Nat)
    (h : Event.tokenChecked r t ∈ (processRequest conf clients r0 ref force).events) :
    t = r.dateReceived ∧ r.dateReceived = r0.dateReceived := by
  rcases processRequest_events_split conf clients r0 ref force _ h with
    ⟨cid, h⟩ | h | ⟨c, hres, h⟩
  · exact absurd h (by simp)
  · exact absurd h (by simp)
  rcases processResolved_events_char _ _ _ _ h with h | h | h | ⟨b, hb, _, _⟩
  · injection h with h1 h2
    constructor
    · rw [h1]; exact h2
    · rw [h1]
  · exact absurd h (by simp)
  · exact absurd h (by simp)
  · exact absurd hb (by simp)

theorem processRequest_dispatched (conf : Configuration) (clients : List Client)
    (r0 : LogRequest) (ref : Option (Option Client)) (force : Bool)
    (r : LogRequest) (b : Bool)
    (h : Event.dispatched r b ∈ (processRequest conf clients r0 ref force).events) :
    ∃ c, resolveClient conf clients r0 ref = some c
      ∧ r = { r0 with clientId := c.id, client := some c }
      ∧ (b = false → isRequestAllowed conf r = true)
      ∧ (b = true → (!force && retainedNonNull ref) = true) := by
  rcases processRequest_events_split conf clients r0 ref force _ h with
    ⟨cid, h⟩ | h | ⟨c, hres, h⟩
  · exact absurd h (by simp)
  · exact absurd h (by simp)
  rcases processResolved_events_char _ _ _ _ h with h | h | h | ⟨b2, hb, hfb, htb⟩
  · exact absurd h (by simp)
  · exact absurd h (by simp)
  · exact absurd h (by simp)
  · injection hb with h1 h2
    refine ⟨c, hres, h1, ?_, ?_⟩
    · intro hb0
      rw [h1]
      exact hfb (h2.symm.trans hb0)
    · intro hb1
      exact htb (h2.symm.trans hb1)

/-! Theorems. -/

/-- Claim C2: for every log request with a non-null attached client,
isRequestAllowed returns true iff (1) ALLOW_UNKNOWN_LOGGERS is set or the
logger is known, (2) the logger is not the internal "residue" logger, (3) the
logger is not blacklisted, and (4) the token store validates the token at the
request's dateReceived unless the logger is configured as not requiring
tokens. -/
theorem isRequestAllowed_iff (conf : Configuration) (r : LogRequest) (c : Client)
    (h : r.client = some c) :
    isRequestAllowed conf r =
      ((conf.allowUnknownLoggers || conf.isKnownLogger r.loggerId)
        && (r.loggerId != RESIDUE_LOGGER_ID)
        && !(conf.isBlacklisted r.loggerId)
        && (!(conf.loggerRequiresToken r.loggerId)
             || validateToken c r.loggerId r.token r.dateReceived)) := by
  unfold isRequestAllowed isRequestAllowedEv Client.isValidToken
  rw [h]
  cases hu : conf.allowUnknownLoggers <;>
    cases hk : conf.isKnownLogger r.loggerId <;>
      cases hr : r.loggerId != RESIDUE_LOGGER_ID <;>
        cases hb : conf.isBlacklisted r.loggerId <;>
          cases ht : conf.loggerRequiresToken r.loggerId <;>
            simp [hu, hk, hr, hb, ht]

/-- Witness for isRequestAllowed_iff at a concrete allowed request. -/
theorem isRequestAllowed_iff_witness :
    isRequestAllowed exConf exDispatched1 =
      ((exConf.allowUnknownLoggers || exConf.isKnownLogger exDispatched1.loggerId)
        && (exDispatched1.loggerId != RESIDUE_LOGGER_ID)
        && !(exConf.isBlacklisted exDispatched1.loggerId)
        && (!(exConf.loggerRequiresToken exDispatched1.loggerId)
             || validateToken exClient exDispatched1.loggerId exDispatched1.token
                  exDispatched1.dateReceived)) :=
  isRequestAllowed_iff exConf exDispatched1 exClient (by decide)

/-- Claim C9: the policy evaluator rejects every request whose attached client
pointer is null, regardless of logger, flags, blacklist, or token. -/
theorem isRequestAllowed_no_client (conf : Configuration) (r : LogRequest)
    (h : r.client = none) : isRequestAllowed conf r = false := by
  unfold isRequestAllowed isRequestAllowedEv
  rw [h]

/-- Witness for isRequestAllowed_no_client at a concrete request. -/
theorem isRequestAllowed_no_client_witness :
    isRequestAllowed exConf exItem1 = false :=
  isRequestAllowed_no_client exConf exItem1 (by decide)

/-- Claim C8: for every raw log request, handle writes STATUS_OK to the
session unconditionally — independent of the payload's validity, status or
contents — and then enqueues the raw request unchanged; no decoding or
per-record validation happens before the write, and the drain path never
writes to the session. -/
theorem handle_writes_status_ok (s : Session) (q : Queue) (rawRequest : QueueItem) :
    handle s q rawRequest
      = (⟨s.writes ++ [ResponseStatus.STATUS_OK]⟩,
         ⟨q.dispatchQ, q.backlogQ ++ [rawRequest]⟩) := rfl

/-- Counterexample to claim C1 as stated: in a bulk whose second item names a
blacklisted logger, the second item is dispatched to the file-logging engine
through the retained-client bypass although the policy evaluator rejects it. -/
theorem c1_counterexample :
    Event.dispatched exDispatched2 true
        ∈ (processRequestQueue exConf exQueue).events
      ∧ isRequestAllowed exConf exDispatched2 = false := by
  exact ⟨by decide, by decide⟩

/-- Counterexample to claim C4 as stated: when the first drained item fails
framing, the dispatcher logs the error but does not continue with the
remaining drained items of the round — only one item was pulled and the good
item behind it is left in the queue, not dispatched. -/
theorem c4_counterexample :
    (processRequestQueue exConf exQueueBad).pulled = 1
    ∧ (processRequestQueue exConf exQueueBad).queue.dispatchQ = [exGoodItem]
    ∧ Event.framingFailedError ∈ (processRequestQueue exConf exQueueBad).events
    ∧ Event.dispatched exGoodDispatched false
        ∉ (processRequestQueue exConf exQueueBad).events := by
  refine ⟨by decide, by decide, by decide, by decide⟩

/-- Counterexample to claim C5 as stated: a drain round whose first item fails
framing calls switchContext zero times and pulls fewer items than the
recorded total. -/
theorem c5_counterexample :
    (processRequestQueue exConf exQueueBad).switchCount = 0
    ∧ exQueueBad.size = 2
    ∧ (processRequestQueue exConf exQueueBad).pulled = 1 := by
  refine ⟨by decide, by decide, by decide⟩

/-- Claim C1 (amended): every record dispatched with checks enforced
(bypassChecks false) — which includes every non-bulk record, since the
non-bulk path calls processRequest with a null clientRef and forceCheck true —
was allowed by the policy evaluator; bulk items dispatched through a retained
client reference (bypassChecks true) bypass the policy evaluator entirely. -/
theorem dispatched_checked_allowed (conf : Configuration) (q : Queue)
    (r : LogRequest) :
    (Event.dispatched r false ∈ (processRequestQueue conf q).events →
        isRequestAllowed conf r = true)
    ∧ (∀ (clients : List Client) (r0 : LogRequest) (b : Bool),
        Event.dispatched r b ∈ (processRequest conf clients r0 none true).events →
          b = false) := by
  constructor
  · intro h
    rw [processRequestQueue_events_eq] at h
    rcases drainLoop_events_char conf _ _ _ h with h | ⟨item, h⟩
    · exact absurd h (by simp)
    rcases handleItem_events_char conf item _ h with
      h | h | h | h | ⟨clients, item2, ref, force, h⟩
    · exact absurd h (by simp)
    · exact absurd h (by simp)
    · exact absurd h (by simp)
    · exact absurd h (by simp)
    rcases processRequest_dispatched conf clients item2 ref force r false h with
      ⟨c, _, _, hfb, _⟩
    exact hfb rfl
  · intro clients r0 b h
    rcases processRequest_dispatched conf clients r0 none true r b h with
      ⟨c, _, _, _, htb⟩
    cases b with
    | false => rfl
    | true =>
      have hx := htb rfl
      simp [retainedNonNull] at hx

/-- Witness for dispatched_checked_allowed: the first bulk item of the
example round is dispatched with checks on, and indeed the policy evaluator
allows it. -/
theorem dispatched_checked_allowed_witness :
    isRequestAllowed exConf exDispatched1 = true :=
  (dispatched_checked_allowed exConf exQueue exDispatched1).1 (by decide)

/-- Claim C3: whenever the pipeline evaluates token validity, the time passed
to the validation is the checked record's dateReceived — never the wall clock
of the dispatch moment, which enters the model only through the ItemEnv `now`
fields and `now0`, all universally quantified here — and inside a bulk every
checked record carries the envelope's dateReceived. -/
theorem token_validation_uses_dateReceived (conf : Configuration) (q : Queue)
    (envelope : LogRequest) (items : List LogRequest) (envs : List ItemEnv)
    (st : BulkState) (r : LogRequest) (t : Nat) :
    (Event.tokenChecked r t ∈ (processRequestQueue conf q).events →
        t = r.dateReceived)
    ∧ (Event.tokenChecked r t ∈ (processBulkItems conf envelope items envs st).events →
        t = r.dateReceived ∧ r.dateReceived = envelope.dateReceived) := by
  constructor
  · intro h
    rw [processRequestQueue_events_eq] at h
    rcases drainLoop_events_char conf _ _ _ h with h | ⟨item, h⟩
    · exact absurd h (by simp)
    rcases handleItem_events_char conf item _ h with
      h | h | h | h | ⟨clients, item2, ref, force, h⟩
    · exact absurd h (by simp)
    · exact absurd h (by simp)
    · exact absurd h (by simp)
    · exact absurd h (by simp)
    exact (processRequest_tokenChecked conf clients item2 ref force r t h).1
  · intro h
    rcases processBulkItems_events_char conf envelope items envs st _ h with
      h | h | h | ⟨clients, item2, ref, force, hdate, h⟩
    · exact absurd h (by simp)
    · exact absurd h (by simp)
    · exact absurd h (by simp)
    have hp := processRequest_tokenChecked conf clients item2 ref force r t h
    exact ⟨hp.1, hp.2.trans hdate⟩

/-- Witness for token_validation_uses_dateReceived: the token check of the
example bulk run is evaluated at time 100, the envelope's dateReceived. -/
theorem token_validation_uses_dateReceived_witness :
    (100 : Nat) = exDispatched1.dateReceived
    ∧ ((100 : Nat) = exDispatched1.dateReceived
        ∧ exDispatched1.dateReceived = exEnvelope.dateReceived) :=
  ⟨(token_validation_uses_dateReceived exConf exQueue exEnvelope [exItem1, exItem2]
      [exEnv, exEnv] exSt0 exDispatched1 100).1 (by decide),
   (token_validation_uses_dateReceived exConf exQueue exEnvelope [exItem1, exItem2]
      [exEnv, exEnv] exSt0 exDispatched1 100).2 (by decide)⟩

/-- Claim C10: every record dispatched by processRequest carries the resolved
client attached and its clientId overwritten with that client's id; the
resolved client comes from the retained reference, the request itself, or a
registry lookup by the request's original clientId; and the same holds for
every record a drain round dispatches. -/
theorem dispatched_client_resolved (conf : Configuration) (clients : List Client)
    (r0 : LogRequest) (ref : Option (Option Client)) (force : Bool) (q : Queue)
    (r : LogRequest) (b : Bool) :
    (Event.dispatched r b ∈ (processRequest conf clients r0 ref force).events →
      ∃ c, r.client = some c ∧ r.clientId = c.id
        ∧ (ref = some (some c) ∨ r0.client = some c
            ∨ findClient clients r0.clientId = some c))
    ∧ (Event.dispatched r b ∈ (processRequestQueue conf q).events →
      ∃ c, r.client = some c ∧ r.clientId = c.id) := by
  constructor
  · intro h
    rcases processRequest_dispatched conf clients r0 ref force r b h with
      ⟨c, hres, h1, _, _⟩
    refine ⟨c, ?_, ?_, resolveClient_cases conf clients r0 ref c hres⟩
    · rw [h1]
    · rw [h1]
  · intro h
    rw [processRequestQueue_events_eq] at h
    rcases drainLoop_events_char conf _ _ _ h with h | ⟨item, h⟩
    · exact absurd h (by simp)
    rcases handleItem_events_char conf item _ h with
      h | h | h | h | ⟨clients2, item2, ref2, force2, h⟩
    · exact absurd h (by simp)
    · exact absurd h (by simp)
    · exact absurd h (by simp)
    · exact absurd h (by simp)
    rcases processRequest_dispatched conf clients2 item2 ref2 force2 r b h with
      ⟨c, _, h1, _, _⟩
    exact ⟨c, by rw [h1], by rw [h1]⟩

/-- Witness for dispatched_client_resolved: the non-bulk example record is
dispatched with the registry client attached, resolved from the request. -/
theorem dispatched_client_resolved_witness :
    ∃ c, exGoodDispatched.client = some c ∧ exGoodDispatched.clientId = c.id
      ∧ ((none : Option (Option Client)) = some (some c)
          ∨ exGoodItem.req.client = some c
          ∨ findClient exGoodItem.clients exGoodItem.req.clientId = some c) :=
  (dispatched_client_resolved exConf exGoodItem.clients exGoodItem.req none true
    exQueue exGoodDispatched false).1 (by decide)

end Residue


namespace Residue

theorem drainLoop_all_good (conf : Configuration) :
    ∀ (D : List QueueItem) (fuel : Nat) (B : List QueueItem),
      D.length ≤ fuel → (∀ it ∈ D, badFraming it = false) →
      (drainLoop conf fuel ⟨D, B⟩).queue = ⟨[], B⟩
      ∧ (drainLoop conf fuel ⟨D, B⟩).pulled = D.length
      ∧ (drainLoop conf fuel ⟨D, B⟩).completed = true := by
  intro D
  induction D with
  | nil =>
    intro fuel B _ _
    cases fuel with
    | zero => simp [drainLoop]
    | succ f => simp [drainLoop]
  | cons item rest ih =>
    intro fuel B hf hg
    cases fuel with
    | zero => simp at hf
    | succ f =>
      have hbf : badFraming item = false := hg item (by simp)
      have hrest : ∀ it ∈ rest, badFraming it = false :=
        fun it hit => hg it (by simp [hit])
      have hlen : rest.length ≤ f := by simpa using hf
      have hr := ih f B hlen hrest
      refine ⟨?_, ?_, ?_⟩ <;> simp [drainLoop, hbf, hr.1, hr.2.1, hr.2.2]

theorem drainLoop_hits_bad (conf : Configuration) (bad : QueueItem)
    (hbad : badFraming bad = true) :
    ∀ (pre : List QueueItem) (fuel : Nat) (rest B : List QueueItem),
      pre.length + 1 ≤ fuel → (∀ it ∈ pre, badFraming it = false) →
      (drainLoop conf fuel ⟨pre ++ bad :: rest, B⟩).queue = ⟨rest, B⟩
      ∧ (drainLoop conf fuel ⟨pre ++ bad :: rest, B⟩).pulled = pre.length + 1
      ∧ (drainLoop conf fuel ⟨pre ++ bad :: rest, B⟩).completed = false
      ∧ Event.framingFailedError
          ∈ (drainLoop conf fuel ⟨pre ++ bad :: rest, B⟩).events := by
  intro pre
  induction pre with
  | nil =>
    intro fuel rest B hf _
    cases fuel with
    | zero => simp at hf
    | succ f => refine ⟨?_, ?_, ?_, ?_⟩ <;> simp [drainLoop, hbad]
  | cons item pre2 ih =>
    intro fuel rest B hf hg
    cases fuel with
    | zero => simp at hf
    | succ f =>
      have hbf : badFraming item = false := hg item (by simp)
      have hpre2 : ∀ it ∈ pre2, badFraming it = false :=
        fun it hit => hg it (by simp [hit])
      have hlen : pre2.length + 1 ≤ f := by
        simp only [List.length_cons] at hf
        omega
      have hr := ih f rest B hlen hpre2
      refine ⟨?_, ?_, ?_, ?_⟩ <;>
        simp [drainLoop, hbf, hr.1, hr.2.1, hr.2.2.1]
      exact Or.inr hr.2.2.2

theorem processRequestQueue_all_good (conf : Configuration) (D B : List QueueItem)
    (hD : ∀ it ∈ D, badFraming it = false) :
    (processRequestQueue conf ⟨D, B⟩).pulled = D.length
    ∧ (processRequestQueue conf ⟨D, B⟩).switchCount = 1
    ∧ (processRequestQueue conf ⟨D, B⟩).queue = ⟨B, []⟩ := by
  have h1 := drainLoop_all_good conf D D.length B le_rfl hD
  refine ⟨?_, ?_, ?_⟩ <;>
    simp [processRequestQueue, Queue.size, h1.1, h1.2.1, h1.2.2, Queue.switchContext]

/-- Claim C5 (amended): a drain round none of whose drained items fails
framing calls switchContext exactly once after pulling exactly total = size()
items; items that were in the backlog buffer during the round become the next
round's drain buffer and are all pulled in that next round. -/
theorem drain_round_switch (conf : Configuration) (D B : List QueueItem)
    (hD : ∀ it ∈ D, badFraming it = false)
    (hB : ∀ it ∈ B, badFraming it = false) :
    (processRequestQueue conf ⟨D, B⟩).pulled = D.length
    ∧ (processRequestQueue conf ⟨D, B⟩).switchCount = 1
    ∧ (processRequestQueue conf ⟨D, B⟩).queue = ⟨B, []⟩
    ∧ (processRequestQueue conf (processRequestQueue conf ⟨D, B⟩).queue).pulled
        = B.length
    ∧ (processRequestQueue conf
        (processRequestQueue conf ⟨D, B⟩).queue).switchCount = 1 := by
  have h1 := processRequestQueue_all_good conf D B hD
  have h2 := processRequestQueue_all_good conf B [] hB
  refine ⟨h1.1, h1.2.1, h1.2.2, ?_, ?_⟩
  · rw [h1.2.2]
    exact h2.1
  · rw [h1.2.2]
    exact h2.2.1

/-- Witness for drain_round_switch on a queue of one good item. -/
theorem drain_round_switch_witness :
    (processRequestQueue exConf ⟨[exGoodItem], []⟩).pulled = [exGoodItem].length
    ∧ (processRequestQueue exConf ⟨[exGoodItem], []⟩).switchCount = 1
    ∧ (processRequestQueue exConf ⟨[exGoodItem], []⟩).queue = ⟨[], []⟩
    ∧ (processRequestQueue exConf
        (processRequestQueue exConf ⟨[exGoodItem], []⟩).queue).pulled
          = ([] : List QueueItem).length
    ∧ (processRequestQueue exConf
        (processRequestQueue exConf ⟨[exGoodItem], []⟩).queue).switchCount = 1 :=
  drain_round_switch exConf [exGoodItem] [] (by decide) (by decide)

/-- Round result when the pull loop returned early. -/
theorem processRequestQueue_incomplete (conf : Configuration) (q : Queue)
    (hc : (drainLoop conf q.size q).completed = false) :
    processRequestQueue conf q
      = ⟨(drainLoop conf q.size q).queue, (drainLoop conf q.size q).pulled, 0,
         (drainLoop conf q.size q).events⟩ := by
  simp [processRequestQueue, hc]

/-- Claim C4 (amended): when a drained item fails framing, the dispatcher
logs a server-side error and ends the round immediately, before
switchContext; only the failed item has been removed, and the drained items
behind it stay in the drain buffer for a later round. -/
theorem framing_failure_ends_round (conf : Configuration) (pre : List QueueItem)
    (bad : QueueItem) (rest B : List QueueItem)
    (hpre : ∀ it ∈ pre, badFraming it = false) (hbad : badFraming bad = true) :
    (processRequestQueue conf ⟨pre ++ bad :: rest, B⟩).pulled = pre.length + 1
    ∧ (processRequestQueue conf ⟨pre ++ bad :: rest, B⟩).switchCount = 0
    ∧ (processRequestQueue conf ⟨pre ++ bad :: rest, B⟩).queue = ⟨rest, B⟩
    ∧ Event.framingFailedError
        ∈ (processRequestQueue conf ⟨pre ++ bad :: rest, B⟩).events := by
  have h1 := drainLoop_hits_bad conf bad hbad pre
    ((⟨pre ++ bad :: rest, B⟩ : Queue).size) rest B (by simp [Queue.size]) hpre
  rw [processRequestQueue_incomplete conf _ h1.2.2.1]
  exact ⟨h1.2.1, rfl, h1.1, h1.2.2.2⟩

/-- Witness for framing_failure_ends_round on the example bad queue. -/
theorem framing_failure_ends_round_witness :
    (processRequestQueue exConf ⟨[] ++ exBadItem :: [exGoodItem], []⟩).pulled
        = ([] : List QueueItem).length + 1
    ∧ (processRequestQueue exConf
        ⟨[] ++ exBadItem :: [exGoodItem], []⟩).switchCount = 0
    ∧ (processRequestQueue exConf ⟨[] ++ exBadItem :: [exGoodItem], []⟩).queue
        = ⟨[exGoodItem], []⟩
    ∧ Event.framingFailedError
        ∈ (processRequestQueue exConf ⟨[] ++ exBadItem :: [exGoodItem], []⟩).events :=
  framing_failure_ends_round exConf [] exBadItem [exGoodItem] [] (by decide) (by decide)

end Residue


namespace Residue

theorem processBulkItems_nil (conf : Configuration) (envelope : LogRequest)
    (envs : List ItemEnv) (st : BulkState) :
    processBulkItems conf envelope [] envs st = ⟨st, [], []⟩ := rfl

theorem processBulkItems_cons_overflow (conf : Configuration) (envelope : LogRequest)
    (item0 : LogRequest) (rest : List LogRequest) (envs : List ItemEnv)
    (st : BulkState) (hc : st.itemCount = conf.maxItemsInBulk) :
    processBulkItems conf envelope (item0 :: rest) envs st
      = ⟨st, [], [Event.bulkOverflowError]⟩ := by
  simp [processBulkItems, hc]

theorem processBulkItems_cons_valid (conf : Configuration) (envelope : LogRequest)
    (item0 : LogRequest) (rest : List LogRequest) (envs : List ItemEnv)
    (st : BulkState) (hc : ¬ st.itemCount = conf.maxItemsInBulk)
    (hv : item0.valid = true) :
    processBulkItems conf envelope (item0 :: rest) envs st
      = ⟨(processBulkItems conf envelope rest envs.tail
            (bulkValidStep conf (envs.headD ⟨[], none, 0⟩) st
              { item0 with ipAddr := envelope.ipAddr
                           dateReceived := envelope.dateReceived }).1).state,
         (bulkValidStep conf (envs.headD ⟨[], none, 0⟩) st
            { item0 with ipAddr := envelope.ipAddr
                         dateReceived := envelope.dateReceived }).2.1
           :: (processBulkItems conf envelope rest envs.tail
                (bulkValidStep conf (envs.headD ⟨[], none, 0⟩) st
                  { item0 with ipAddr := envelope.ipAddr
                               dateReceived := envelope.dateReceived }).1).attempted,
         (bulkValidStep conf (envs.headD ⟨[], none, 0⟩) st
            { item0 with ipAddr := envelope.ipAddr
                         dateReceived := envelope.dateReceived }).2.2
           ++ (processBulkItems conf envelope rest envs.tail
                (bulkValidStep conf (envs.headD ⟨[], none, 0⟩) st
                  { item0 with ipAddr := envelope.ipAddr
                               dateReceived := envelope.dateReceived }).1).events⟩ := by
  simp [processBulkItems, hc, hv]

theorem processBulkItems_cons_invalid (conf : Configuration) (envelope : LogRequest)
    (item0 : LogRequest) (rest : List LogRequest) (envs : List ItemEnv)
    (st : BulkState) (hc : ¬ st.itemCount = conf.maxItemsInBulk)
    (hv : item0.valid = false) :
    processBulkItems conf envelope (item0 :: rest) envs st
      = ⟨(processBulkItems conf envelope rest envs.tail st).state,
         (processBulkItems conf envelope rest envs.tail st).attempted,
         Event.invalidBulkItemError
           :: (processBulkItems conf envelope rest envs.tail st).events⟩ := by
  simp [processBulkItems, hc, hv]

theorem processRequest_no_overflow (conf : Configuration) (clients : List Client)
    (r0 : LogRequest) (ref : Option (Option Client)) (force : Bool) :
    Event.bulkOverflowError ∉ (processRequest conf clients r0 ref force).events := by
  intro h
  rcases processRequest_events_split conf clients r0 ref force _ h with
    ⟨cid, h⟩ | h | ⟨c, _, h⟩
  · exact absurd h (by simp)
  · exact absurd h (by simp)
  · rcases processResolved_events_char _ _ _ _ h with h | h | h | ⟨b, hb, _, _⟩
    · exact absurd h (by simp)
    · exact absurd h (by simp)
    · exact absurd h (by simp)
    · exact absurd hb (by simp)

theorem bulkValidStep_no_overflow (conf : Configuration) (e : ItemEnv)
    (st : BulkState) (item1 : LogRequest) :
    Event.bulkOverflowError ∉ (bulkValidStep conf e st item1).2.2 := by
  intro h
  rcases bulkValidStep_events_char conf e st item1 _ h with h | ⟨ref, force, h⟩
  · exact absurd h (by simp)
  · exact absurd h (processRequest_no_overflow conf e.clients _ ref force)

theorem processBulkItems_count_general (conf : Configuration) (envelope : LogRequest)
    (items : List LogRequest) :
    ∀ (envs : List ItemEnv) (st : BulkState),
      (∀ it ∈ items, it.valid = true) → st.itemCount ≤ conf.maxItemsInBulk →
      ((processBulkItems conf envelope items envs st).attempted.length
          = min (conf.maxItemsInBulk - st.itemCount) items.length)
      ∧ ((processBulkItems conf envelope items envs st).attempted.map
            (fun it => (it.loggerId, it.msg, it.token))
          = (items.take (conf.maxItemsInBulk - st.itemCount)).map
            (fun it => (it.loggerId, it.msg, it.token)))
      ∧ (items.length ≤ conf.maxItemsInBulk - st.itemCount →
          Event.bulkOverflowError
            ∉ (processBulkItems conf envelope items envs st).events)
      ∧ (conf.maxItemsInBulk - st.itemCount < items.length →
          Event.bulkOverflowError
            ∈ (processBulkItems conf envelope items envs st).events) := by
  induction items with
  | nil =>
    intro envs st _ _
    rw [processBulkItems_nil]
    refine ⟨by simp, by simp, fun _ => by simp, fun h => ?_⟩
    simp at h
  | cons item0 rest ih =>
    intro envs st hall hcount
    by_cases hc : st.itemCount = conf.maxItemsInBulk
    · rw [processBulkItems_cons_overflow conf envelope item0 rest envs st hc]
      refine ⟨?_, ?_, ?_, ?_⟩
      · simp [hc]
      · simp [hc]
      · intro hlen
        rw [hc] at hlen
        simp at hlen
      · intro _
        simp
    · have hlt : st.itemCount < conf.maxItemsInBulk := Nat.lt_of_le_of_ne hcount hc
      have hv : item0.valid = true := hall item0 (by simp)
      have hallr : ∀ it ∈ rest, it.valid = true := fun it hit => hall it (by simp [hit])
      have hstep := bulkValidStep_itemCount conf (envs.headD ⟨[], none, 0⟩) st
        { item0 with ipAddr := envelope.ipAddr
                     dateReceived := envelope.dateReceived }
      have hcount2 : (bulkValidStep conf (envs.headD ⟨[], none, 0⟩) st
          { item0 with ipAddr := envelope.ipAddr
                       dateReceived := envelope.dateReceived }).1.itemCount
            ≤ conf.maxItemsInBulk := by
        rw [hstep]; omega
      have IH := ih envs.tail _ hallr hcount2
      rw [processBulkItems_cons_valid conf envelope item0 rest envs st hc hv]
      have hsub : conf.maxItemsInBulk - st.itemCount
          = (conf.maxItemsInBulk
              - (bulkValidStep conf (envs.headD ⟨[], none, 0⟩) st
                  { item0 with ipAddr := envelope.ipAddr
                               dateReceived := envelope.dateReceived }).1.itemCount) + 1 := by
        rw [hstep]; omega
      refine ⟨?_, ?_, ?_, ?_⟩
      · simp only [List.length_cons, IH.1, List.length_cons]
        rw [hstep]
        omega
      · simp only [List.map_cons, IH.2.1, hsub, List.take_succ_cons, List.map_cons]
        have hfields := bulkValidStep_item_fields conf (envs.headD ⟨[], none, 0⟩) st
          { item0 with ipAddr := envelope.ipAddr
                       dateReceived := envelope.dateReceived }
        rw [hfields.1, hfields.2.2.1, hfields.2.1]
      · intro hlen
        simp only [List.length_cons] at hlen
        have hlen2 : rest.length ≤ conf.maxItemsInBulk
            - (bulkValidStep conf (envs.headD ⟨[], none, 0⟩) st
                { item0 with ipAddr := envelope.ipAddr
                             dateReceived := envelope.dateReceived }).1.itemCount := by
          rw [hstep]; omega
        simp only [List.mem_append, not_or]
        exact ⟨bulkValidStep_no_overflow conf _ st _, IH.2.2.1 hlen2⟩
      · intro hlen
        simp only [List.length_cons] at hlen
        have hlen2 : conf.maxItemsInBulk
            - (bulkValidStep conf (envs.headD ⟨[], none, 0⟩) st
                { item0 with ipAddr := envelope.ipAddr
                             dateReceived := envelope.dateReceived }).1.itemCount
              < rest.length := by
          rw [hstep]; omega
        simp only [List.mem_append]
        exact Or.inr (IH.2.2.2 hlen2)

/-- Claim C7: under ALLOW_BULK_LOG_REQUEST, a bulk (of valid items) processes
at most maxItemsInBulk items: exactly the first maxItemsInBulk items in order
are passed to processRequest, a bulk of at most maxItemsInBulk items
processes all of them without a BulkOverflow error, and a larger bulk logs
the BulkOverflow ERROR and ignores the remaining items. -/
theorem bulk_max_items (conf : Configuration) (envelope : LogRequest)
    (items : List LogRequest) (envs : List ItemEnv) (client0 : Option Client)
    (cid : String) (now0 : Nat)
    (hall : ∀ it ∈ items, it.valid = true) :
    ((processBulkItems conf envelope items envs
          ⟨0, now0, client0, cid, true⟩).attempted.length
        = min conf.maxItemsInBulk items.length)
    ∧ ((processBulkItems conf envelope items envs
          ⟨0, now0, client0, cid, true⟩).attempted.map
            (fun it => (it.loggerId, it.msg, it.token))
        = (items.take conf.maxItemsInBulk).map
            (fun it => (it.loggerId, it.msg, it.token)))
    ∧ (items.length ≤ conf.maxItemsInBulk →
        Event.bulkOverflowError
          ∉ (processBulkItems conf envelope items envs
              ⟨0, now0, client0, cid, true⟩).events)
    ∧ (conf.maxItemsInBulk < items.length →
        Event.bulkOverflowError
          ∈ (processBulkItems conf envelope items envs
              ⟨0, now0, client0, cid, true⟩).events) := by
  have h := processBulkItems_count_general conf envelope items envs
    ⟨0, now0, client0, cid, true⟩ hall (by simp)
  simpa using h

/-- Witness for bulk_max_items on the example two-item bulk (cap 10). -/
theorem bulk_max_items_witness :
    ((processBulkItems exConf exEnvelope [exItem1, exItem2] [exEnv, exEnv]
          ⟨0, 100, some exClient, "c1", true⟩).attempted.length
        = min exConf.maxItemsInBulk [exItem1, exItem2].length)
    ∧ ((processBulkItems exConf exEnvelope [exItem1, exItem2] [exEnv, exEnv]
          ⟨0, 100, some exClient, "c1", true⟩).attempted.map
            (fun it => (it.loggerId, it.msg, it.token))
        = ([exItem1, exItem2].take exConf.maxItemsInBulk).map
            (fun it => (it.loggerId, it.msg, it.token)))
    ∧ ([exItem1, exItem2].length ≤ exConf.maxItemsInBulk →
        Event.bulkOverflowError
          ∉ (processBulkItems exConf exEnvelope [exItem1, exItem2] [exEnv, exEnv]
              ⟨0, 100, some exClient, "c1", true⟩).events)
    ∧ (exConf.maxItemsInBulk < [exItem1, exItem2].length →
        Event.bulkOverflowError
          ∈ (processBulkItems exConf exEnvelope [exItem1, exItem2] [exEnv, exEnv]
              ⟨0, 100, some exClient, "c1", true⟩).events) :=
  bulk_max_items exConf exEnvelope [exItem1, exItem2] [exEnv, exEnv]
    (some exClient) "c1" 100 (by decide)

theorem bulkValidStep_currentClient_guard (conf : Configuration) (e : ItemEnv)
    (st : BulkState) (item1 : LogRequest) (hg : revalidateGuard e st = true) :
    (bulkValidStep conf e st item1).1.currentClient
      = resolveClient conf e.clients
          { item1 with client := none, clientId := st.lastKnownClientId }
          (some none) := by
  cases hok : (processRequest conf e.clients
      { item1 with client := none, clientId := st.lastKnownClientId }
      (some none) true).ok <;>
    simp [bulkValidStep, invalidateForRevalidation, hg, hok,
      processRequest_clientRef_eq]

/-- Environment for the revalidation witness: the integrity task last ran at
time 60, the wall clock reads 70. -/
def wEnv : ItemEnv := ⟨[exClient], some 60, 70⟩

/-- Bulk state for the revalidation witness: one item already processed with
the retained exClient, last validated at time 50, not forcing. -/
def wSt : BulkState := ⟨1, 50, some exClient, "c1", false⟩

/-- Claim C6: if between consecutive bulk items validation is not already
forced and the integrity task's lastExecution has advanced to or past
lastClientValidation, the step discards the retained client pointer, restores
lastKnownClientId into the item, forces validation (so the step's dispatch, if
any, runs with checks on) and resets lastClientValidation to now;
consequently the retained client after the step, and the client attached to
any record dispatched at this step, come from a registry lookup by
lastKnownClientId against the registry state this item observes. -/
theorem bulk_integrity_revalidation (conf : Configuration) (e : ItemEnv)
    (st : BulkState) (item1 : LogRequest)
    (hforce : st.forceClientValidation = false)
    (hexec : ∃ x, e.integrityLastExec = some x ∧ st.lastClientValidation ≤ x) :
    (bulkValidStep conf e st item1).2.1
        = { item1 with client := none, clientId := st.lastKnownClientId }
    ∧ (bulkValidStep conf e st item1).1.lastClientValidation = e.now
    ∧ ((bulkValidStep conf e st item1).1.currentClient = none
        ∨ (bulkValidStep conf e st item1).1.currentClient
            = findClient e.clients st.lastKnownClientId)
    ∧ (∀ r b, Event.dispatched r b ∈ (bulkValidStep conf e st item1).2.2 →
        b = false ∧ r.client = findClient e.clients st.lastKnownClientId) := by
  obtain ⟨x, hx, hle⟩ := hexec
  have hg : revalidateGuard e st = true := by
    simp [revalidateGuard, hforce, hx, hle]
  have hrc := resolveClient_refnull_clientnull conf e.clients
    { item1 with client := none, clientId := st.lastKnownClientId } rfl
  refine ⟨?_, ?_, ?_, ?_⟩
  · simp [bulkValidStep, invalidateForRevalidation, hg]
  · cases hok : (processRequest conf e.clients
        { item1 with client := none, clientId := st.lastKnownClientId }
        (some none) true).ok <;>
      simp [bulkValidStep, invalidateForRevalidation, hg, hok]
  · rw [bulkValidStep_currentClient_guard conf e st item1 hg, hrc]
    split
    · exact Or.inr rfl
    · exact Or.inl rfl
  · intro r b hmem
    simp [bulkValidStep, invalidateForRevalidation, hg] at hmem
    rcases processRequest_dispatched conf e.clients _ (some none) true r b hmem with
      ⟨c, hres, h1, _, htb⟩
    have hb : b = false := by
      cases b with
      | false => rfl
      | true =>
        have hx2 := htb rfl
        simp [retainedNonNull] at hx2
    refine ⟨hb, ?_⟩
    rw [hrc] at hres
    split at hres
    · rw [h1]
      exact hres.symm
    · exact absurd hres (by simp)

/-- Witness for bulk_integrity_revalidation with the integrity task having
run at 60 after a validation at 50. -/
theorem bulk_integrity_revalidation_witness :
    (bulkValidStep exConf wEnv wSt exItem1).1.currentClient = none
    ∨ (bulkValidStep exConf wEnv wSt exItem1).1.currentClient
        = findClient wEnv.clients wSt.lastKnownClientId :=
  (bulk_integrity_revalidation exConf wEnv wSt exItem1 (by decide)
    ⟨60, rfl, by decide⟩).2.2.1

end Residue
